import Mathlib

/-!
# Verification of `spectralLES.py`

A shallow embedding of the `spectralLES` class of this repository (a
pseudo-spectral incompressible LES solver) together with proofs and
refutations of the specification's claims about it.

Conventions used throughout:
* physical-space scalar fields on the (rank-local) grid are functions
  `ι → ℝ` over an abstract finite index type `ι`;
* spectral-space scalar fields are functions `κ → ℂ` over an abstract
  index type `κ` of retained modes;
* the external collaborators `rfft3`, `irfft3` (from `teslacu.fft`) are taken
  as function parameters, matching the spec's narrow transform contract;
* machine floating point is modelled by exact real/rational arithmetic;
  definitions that involve no transcendental function are stated over a
  generic division ring or over `ℚ` so that they remain executable.
-/

namespace SpectralLES

/-! ## Wavevector model (`__init__`, lines 130-139)

Per retained mode the solver holds the integer wavevector `K`, its squared
magnitude `Ksq = np.sum(np.square(K), axis=0)`, and the masked projection
coefficients `K_Ksq = K / np.where(Ksq==0, 1, Ksq)`.  These definitions are
per mode: `k : Fin 3 → ℤ` is the wavevector of one retained mode. -/

def Ksq (k : Fin 3 → ℤ) : ℤ := ∑ i, (k i) ^ 2

def K_Ksq (k : Fin 3 → ℤ) (i : Fin 3) : ℚ :=
  (k i : ℚ) / (if Ksq k = 0 then (1 : ℚ) else (Ksq k : ℚ))

/-- The Leray-Hopf (divergence-free) projection applied at one retained mode,
`F - np.sum(F*K_Ksq, axis=0)*K`, exactly as in lines 329 and 671 of the
source.  The scalar type is a generic division ring so the definition stays
executable; the solver instantiates it at `ℂ`. -/
def leray_project {𝕜 : Type} [DivisionRing 𝕜] (k : Fin 3 → ℤ) (F : Fin 3 → 𝕜) :
    Fin 3 → 𝕜 :=
  fun i => F i - (∑ j, F j * ((K_Ksq k j : ℚ) : 𝕜)) * (k i : 𝕜)

lemma Ksq_eq_zero_imp {k : Fin 3 → ℤ} (h : Ksq k = 0) (i : Fin 3) : k i = 0 := by
  have h' := (Finset.sum_eq_zero_iff_of_nonneg
      (fun j _ => sq_nonneg (k j))).mp h i (Finset.mem_univ i)
  exact pow_eq_zero_iff two_ne_zero |>.mp h'

lemma Ksq_cast_ne_zero {k : Fin 3 → ℤ} (h : Ksq k ≠ 0) :
    ((k 0 : ℂ)) ^ 2 + ((k 1 : ℂ)) ^ 2 + ((k 2 : ℂ)) ^ 2 ≠ 0 := by
  have h' : ((Ksq k : ℤ) : ℂ) ≠ 0 := Int.cast_ne_zero.mpr h
  simpa [Ksq, Fin.sum_univ_three] using h'

lemma leray_div_free (k : Fin 3 → ℤ) (F : Fin 3 → ℂ) :
    ∑ i, (k i : ℂ) * leray_project k F i = 0 := by
  by_cases h : Ksq k = 0
  · have hz : ∀ i, k i = 0 := Ksq_eq_zero_imp h
    simp [leray_project, hz]
  · have hN := Ksq_cast_ne_zero h
    simp only [leray_project, K_Ksq, if_neg h]
    simp only [Ksq, Fin.sum_univ_three] at hN ⊢
    push_cast
    field_simp
    ring

/-- C5: at every retained mode, the projected field `P(F) = F - (Σ F·K_Ksq)·K`
has zero spectral divergence `Σ_axis K[axis]·P(F)[axis] = 0` (including at the
zero mode, where `K_Ksq` is masked to avoid a division by zero), and the
projection is idempotent: `P(P(F)) = P(F)`. -/
theorem leray_projection_div_free_idempotent (k : Fin 3 → ℤ) (F : Fin 3 → ℂ) :
    (∑ i, (k i : ℂ) * leray_project k F i) = 0 ∧
    leray_project k (leray_project k F) = leray_project k F := by
  refine ⟨leray_div_free k F, ?_⟩
  funext i
  have hcorr : (∑ j, leray_project k F j * ((K_Ksq k j : ℚ) : ℂ)) = 0 := by
    by_cases h : Ksq k = 0
    · have hz : ∀ i, k i = 0 := Ksq_eq_zero_imp h
      simp [leray_project, K_Ksq, hz]
    · have hdf := leray_div_free k F
      have hrw : (∑ j, leray_project k F j * ((K_Ksq k j : ℚ) : ℂ))
          = (∑ j, (k j : ℂ) * leray_project k F j) / ((Ksq k : ℤ) : ℂ) := by
        rw [Finset.sum_div]
        refine Finset.sum_congr rfl fun j _ => ?_
        simp only [K_Ksq, if_neg h]
        push_cast
        ring
      rw [hrw, hdf, zero_div]
  conv_lhs => rw [leray_project]
  rw [hcorr]
  simp

/-! ## Timestep estimator (`new_dt_const_nu`, lines 604-619) -/

/-- Embeds `new_dt_const_nu`.  `u1m`, `u2m`, `u3m` stand for the global maxima
`comm.allreduce(np.max(U[i]), op=MPI.MAX)` of the three velocity components,
which the method computes before taking the two bounds. -/
def new_dt_const_nu (dx : Fin 3 → ℚ) (u1m u2m u3m : ℚ) (nu nuTmax cfl : ℚ) : ℚ :=
  let dtMinHydro := cfl * min (dx 0 / u1m) (min (dx 1 / u2m) (dx 2 / u3m))
  let dtMinDiff := (min (dx 0) (min (dx 1) (dx 2))) ^ 2 / max (2.0 * nu) (nuTmax / cfl)
  min dtMinHydro dtMinDiff

/-- C7 counterexample: the returned timestep does not strictly decrease when
the maximum velocity component grows (first conjunct: doubling `u1m` on a
diffusion-limited configuration leaves the result unchanged), nor when the
viscosity grows (second conjunct: doubling `nu` on a CFL-limited
configuration leaves the result unchanged). -/
theorem new_dt_const_nu_not_strictly_monotone :
    new_dt_const_nu (fun _ => 1) 2 1 1 50 0 1 = new_dt_const_nu (fun _ => 1) 1 1 1 50 0 1 ∧
    new_dt_const_nu (fun _ => 1) 100 100 100 (1/1000) 0 1
      = new_dt_const_nu (fun _ => 1) 100 100 100 (2/1000) 0 1 := by
  norm_num [new_dt_const_nu, min_def, max_def]

/-- C7 (amended): the returned timestep is monotonically non-increasing in the
maximum velocity components and in the viscosity (strict decrease holds only
while the corresponding bound is the active one), and for sufficiently small
positive velocity maxima it equals the diffusion-limited bound
`min(dx)^2 / max(2*nu, nuTmax/cfl)`. -/
theorem new_dt_const_nu_monotone_and_diffusion_limit
    (dx : Fin 3 → ℚ) (u1m u2m u3m u1m' u2m' u3m' nu nu' nuTmax cfl : ℚ)
    (hdx : ∀ i, 0 < dx i) (hcfl : 0 < cfl) (hnuT : 0 ≤ nuTmax) (hnu : 0 < nu)
    (hu1 : 0 < u1m) (hu2 : 0 < u2m) (hu3 : 0 < u3m)
    (h1 : u1m ≤ u1m') (h2 : u2m ≤ u2m') (h3 : u3m ≤ u3m') (hnn : nu ≤ nu') :
    new_dt_const_nu dx u1m' u2m' u3m' nu nuTmax cfl
      ≤ new_dt_const_nu dx u1m u2m u3m nu nuTmax cfl ∧
    new_dt_const_nu dx u1m u2m u3m nu' nuTmax cfl
      ≤ new_dt_const_nu dx u1m u2m u3m nu nuTmax cfl ∧
    (∀ v1 v2 v3 : ℚ, 0 < v1 → 0 < v2 → 0 < v3 →
      v1 * (min (dx 0) (min (dx 1) (dx 2))) ^ 2
        ≤ cfl * dx 0 * max (2.0 * nu) (nuTmax / cfl) →
      v2 * (min (dx 0) (min (dx 1) (dx 2))) ^ 2
        ≤ cfl * dx 1 * max (2.0 * nu) (nuTmax / cfl) →
      v3 * (min (dx 0) (min (dx 1) (dx 2))) ^ 2
        ≤ cfl * dx 2 * max (2.0 * nu) (nuTmax / cfl) →
      new_dt_const_nu dx v1 v2 v3 nu nuTmax cfl
        = (min (dx 0) (min (dx 1) (dx 2))) ^ 2 / max (2.0 * nu) (nuTmax / cfl)) := by
  have h2nu : (0 : ℚ) < 2.0 * nu := by nlinarith
  have hM : (0 : ℚ) < max (2.0 * nu) (nuTmax / cfl) := lt_max_of_lt_left h2nu
  refine ⟨?_, ?_, ?_⟩
  · unfold new_dt_const_nu
    refine min_le_min (mul_le_mul_of_nonneg_left ?_ hcfl.le) le_rfl
    refine min_le_min ?_ (min_le_min ?_ ?_)
    · exact div_le_div_of_nonneg_left (hdx 0).le hu1 h1
    · exact div_le_div_of_nonneg_left (hdx 1).le hu2 h2
    · exact div_le_div_of_nonneg_left (hdx 2).le hu3 h3
  · unfold new_dt_const_nu
    refine min_le_min le_rfl ?_
    refine div_le_div_of_nonneg_left (by positivity) hM ?_
    exact max_le_max (by nlinarith) le_rfl
  · intro v1 v2 v3 hv1 hv2 hv3 hb1 hb2 hb3
    unfold new_dt_const_nu
    refine min_eq_right ?_
    have key : ∀ v d : ℚ, 0 < v →
        v * (min (dx 0) (min (dx 1) (dx 2))) ^ 2
          ≤ cfl * d * max (2.0 * nu) (nuTmax / cfl) →
        (min (dx 0) (min (dx 1) (dx 2))) ^ 2 / max (2.0 * nu) (nuTmax / cfl)
          ≤ cfl * (d / v) := by
      intro v d hv hb
      rw [mul_div_assoc', div_le_div_iff₀ hM hv]
      nlinarith [hb]
    rcases min_choice (dx 0 / v1) (min (dx 1 / v2) (dx 2 / v3)) with hc | hc
    · rw [hc]; exact key v1 (dx 0) hv1 hb1
    · rw [hc]
      rcases min_choice (dx 1 / v2) (dx 2 / v3) with hc' | hc'
      · rw [hc']; exact key v2 (dx 1) hv2 hb2
      · rw [hc']; exact key v3 (dx 2) hv3 hb3

/-- Witness for the C7 amended theorem at `dx = 1`, `cfl = 1`, `nu = 50`,
`nuTmax = 0`, velocity maxima `1 ≤ 2`, viscosities `50 ≤ 60`. -/
theorem new_dt_const_nu_monotone_and_diffusion_limit_witness :
    new_dt_const_nu (fun _ => 1) 2 2 2 50 0 1 ≤ new_dt_const_nu (fun _ => 1) 1 1 1 50 0 1 ∧
    new_dt_const_nu (fun _ => 1) 1 1 1 60 0 1 ≤ new_dt_const_nu (fun _ => 1) 1 1 1 50 0 1 ∧
    (∀ v1 v2 v3 : ℚ, 0 < v1 → 0 < v2 → 0 < v3 →
      v1 * (min ((fun (_ : Fin 3) => (1:ℚ)) 0) (min ((fun (_ : Fin 3) => (1:ℚ)) 1) ((fun (_ : Fin 3) => (1:ℚ)) 2))) ^ 2
        ≤ 1 * (fun (_ : Fin 3) => (1:ℚ)) 0 * max (2.0 * 50) ((0:ℚ) / 1) →
      v2 * (min ((fun (_ : Fin 3) => (1:ℚ)) 0) (min ((fun (_ : Fin 3) => (1:ℚ)) 1) ((fun (_ : Fin 3) => (1:ℚ)) 2))) ^ 2
        ≤ 1 * (fun (_ : Fin 3) => (1:ℚ)) 1 * max (2.0 * 50) ((0:ℚ) / 1) →
      v3 * (min ((fun (_ : Fin 3) => (1:ℚ)) 0) (min ((fun (_ : Fin 3) => (1:ℚ)) 1) ((fun (_ : Fin 3) => (1:ℚ)) 2))) ^ 2
        ≤ 1 * (fun (_ : Fin 3) => (1:ℚ)) 2 * max (2.0 * 50) ((0:ℚ) / 1) →
      new_dt_const_nu (fun _ => 1) v1 v2 v3 50 0 1
        = (min ((fun (_ : Fin 3) => (1:ℚ)) 0) (min ((fun (_ : Fin 3) => (1:ℚ)) 1) ((fun (_ : Fin 3) => (1:ℚ)) 2))) ^ 2
            / max (2.0 * 50) ((0:ℚ) / 1)) :=
  new_dt_const_nu_monotone_and_diffusion_limit (fun _ => 1) 1 1 1 2 2 2 50 60 0 1
    (fun _ => by norm_num) (by norm_num) (by norm_num) (by norm_num)
    (by norm_num) (by norm_num) (by norm_num)
    (by norm_num) (by norm_num) (by norm_num) (by norm_num)

/-! ## Constructor input validation (`__init__`, lines 68-86) -/

/-- A Python argument as `__init__` sees `L` and `nx`: either a non-iterable
number or an iterable of numbers. -/
inductive PyArg where
  | scalar (x : ℚ)
  | iterable (xs : List ℚ)

/-- Python `int()` applied to a number: truncation toward zero. -/
def pyInt (x : ℚ) : ℤ := if 0 ≤ x then ⌊x⌋ else -⌊-x⌋

/-- Lines 68-76: parse the `nx` argument.  A length-1 iterable is replicated
(`list(nx)*3`), a length-3 iterable is taken as is, any other length raises
`IndexError`; a scalar is replicated to three components via `int(nx)`. -/
def init_nx : PyArg → Except String (List ℤ)
  | PyArg.iterable xs =>
      if xs.length = 1 then Except.ok ((xs ++ xs ++ xs).map pyInt)
      else if xs.length = 3 then Except.ok (xs.map pyInt)
      else Except.error "IndexError: The length of nx must be either 1 or 3"
  | PyArg.scalar x => Except.ok (List.replicate 3 (pyInt x))

/-- Lines 78-86: parse the `L` argument, identically except that a scalar is
replicated via `float(L)`. -/
def init_L : PyArg → Except String (List ℚ)
  | PyArg.iterable xs =>
      if xs.length = 1 then Except.ok (xs ++ xs ++ xs)
      else if xs.length = 3 then Except.ok xs
      else Except.error "IndexError: The length of L must be either 1 or 3"
  | PyArg.scalar x => Except.ok (List.replicate 3 x)

/-- The validation prefix of `__init__`: `nx` is parsed first (lines 68-76),
then `L` (lines 78-86); the first failure propagates, with no retry or
fallback. -/
def spectralLES_init_validate (L nx : PyArg) : Except String (List ℤ × List ℚ) :=
  match init_nx nx with
  | Except.error e => Except.error e
  | Except.ok n =>
    match init_L L with
    | Except.error e => Except.error e
    | Except.ok l => Except.ok (n, l)

def isErr {ε α : Type} : Except ε α → Bool
  | Except.error _ => true
  | Except.ok _ => false

/-- An iterable argument whose length is neither 1 nor 3. -/
def badLength : PyArg → Prop
  | PyArg.iterable xs => xs.length ≠ 1 ∧ xs.length ≠ 3
  | PyArg.scalar _ => False

/-! ## Filter kernels (`filter_kernel`, lines 201-261) -/

/-- The isotropic wavenumber magnitude of lines 213-215: aspect ratios
`A = L/L.min()` and `kmag = sqrt(sum(square(K/A)))` for one mode's integer
wavevector `k`. -/
noncomputable def kmag_iso (L : Fin 3 → ℝ) (k : Fin 3 → ℤ) : ℝ :=
  Real.sqrt (∑ i, ((k i : ℝ) / (L i / min (L 0) (min (L 1) (L 2)))) ^ 2)

/-- Line 221, the tophat transfer function
`Ghat[:] = np.sin(pi*k_kf)/(pi*k_kf**2)` at one mode. -/
noncomputable def tophat_Ghat (k_kf : ℝ) : ℝ :=
  Real.sin (Real.pi * k_kf) / (Real.pi * k_kf ^ 2)

/-- Lines 232-234, the compact-exponential spectral template
`np.where(k_kf < 0.5, np.exp(-k_kf**2/(0.25-k_kf**2)), 0.0)` at one mode. -/
noncomputable def comp_exp_Ghat_pre (k_kf : ℝ) : ℝ :=
  if k_kf < 0.5 then Real.exp (-k_kf ^ 2 / (0.25 - k_kf ^ 2)) else 0

/-- Line 256, the sharp spectral cutoff `(np.abs(k_kf) < 1.0)` at one mode. -/
noncomputable def spectral_Ghat (k_kf : ℝ) : ℝ := if |k_kf| < 1 then 1 else 0

/-- Lines 235-239: the compact-exponential kernel is inverse-transformed,
squared in physical space, re-transformed, normalized by the `[0,0,0]` entry
(on a single-process communicator `comm.allreduce(Ghat[0,0,0], op=MPI.MAX)`
is that entry itself, held by `zero_mode`), and stripped of its residual
imaginary part (`Ghat -= 1j*np.imag(Ghat)`). -/
noncomputable def comp_exp_Ghat {ι κ : Type} (rfft3 : (ι → ℝ) → κ → ℂ)
    (irfft3 : (κ → ℂ) → ι → ℝ) (k_kf : κ → ℝ) (zero_mode : κ) : κ → ℂ :=
  let Ghat : κ → ℂ := fun k => ((comp_exp_Ghat_pre (k_kf k) : ℝ) : ℂ)
  let G := irfft3 Ghat
  let Gsq := fun x => (G x) ^ 2
  let Ghat2 := rfft3 Gsq
  let Ghat3 := fun k => Ghat2 k * (1 / Ghat2 zero_mode)
  fun k => Ghat3 k - Complex.I * ((Ghat3 k).im : ℂ)

/-- The `filter_kernel` method (lines 201-261).  When no pre-normalized
wavenumber field `k_kf` is supplied, the isotropic one is computed from the
wavevector field `K` and the cutoff `kf`; the kernel-type label is then
dispatched, an unknown label raising `ValueError`. -/
noncomputable def filter_kernel {ι κ : Type} (rfft3 : (ι → ℝ) → κ → ℂ)
    (irfft3 : (κ → ℂ) → ι → ℝ) (L : Fin 3 → ℝ) (K : Fin 3 → κ → ℤ)
    (zero_mode : κ) (kf : ℝ) (Gtype : String) (k_kf_arg : Option (κ → ℝ)) :
    Except String (κ → ℂ) :=
  let k_kf : κ → ℝ :=
    match k_kf_arg with
    | none => fun k => kmag_iso L (fun i => K i k) / kf
    | some f => f
  if Gtype = "tophat" then
    Except.ok (fun k => ((tophat_Ghat (k_kf k) : ℝ) : ℂ))
  else if Gtype = "comp_exp" then
    Except.ok (comp_exp_Ghat rfft3 irfft3 k_kf zero_mode)
  else if Gtype = "spectral" then
    Except.ok (fun k => ((spectral_Ghat (k_kf k) : ℝ) : ℂ))
  else
    Except.error "ValueError: did not understand filter type"

/-- C9: the constructor raises an input-validation error exactly when `L` or
`nx` is an iterable whose length is neither 1 nor 3 (first conjunct); scalar
`nx` and `L` are accepted and replicated to three components (second and
third conjuncts); `filter_kernel` raises a descriptive error exactly when the
kernel-type label is none of `tophat`, `comp_exp`, `spectral` (fourth
conjunct).  The `Except` values make each path a single immediate failure:
there is no retry or fallback. -/
lemma isErr_init_nx (a : PyArg) : isErr (init_nx a) = true ↔ badLength a := by
  cases a with
  | scalar x => simp [init_nx, isErr, badLength]
  | iterable xs =>
    simp only [init_nx, badLength]
    split_ifs with h1 h3
    · simp [isErr, h1]
    · simp [isErr, h1, h3]
    · simp [isErr, h1, h3]

lemma isErr_init_L (a : PyArg) : isErr (init_L a) = true ↔ badLength a := by
  cases a with
  | scalar x => simp [init_L, isErr, badLength]
  | iterable xs =>
    simp only [init_L, badLength]
    split_ifs with h1 h3
    · simp [isErr, h1]
    · simp [isErr, h1, h3]
    · simp [isErr, h1, h3]

theorem init_and_filter_kernel_validation {ι κ : Type}
    (rfft3 : (ι → ℝ) → κ → ℂ) (irfft3 : (κ → ℂ) → ι → ℝ)
    (L₀ : Fin 3 → ℝ) (K₀ : Fin 3 → κ → ℤ) (zero_mode : κ) :
    (∀ L nx : PyArg,
      isErr (spectralLES_init_validate L nx) = true ↔ (badLength nx ∨ badLength L)) ∧
    (∀ x : ℚ, init_nx (PyArg.scalar x) = Except.ok (List.replicate 3 (pyInt x))) ∧
    (∀ x : ℚ, init_L (PyArg.scalar x) = Except.ok (List.replicate 3 x)) ∧
    (∀ (kf : ℝ) (Gtype : String) (k_kf_arg : Option (κ → ℝ)),
      isErr (filter_kernel rfft3 irfft3 L₀ K₀ zero_mode kf Gtype k_kf_arg) = true ↔
        (Gtype ≠ "tophat" ∧ Gtype ≠ "comp_exp" ∧ Gtype ≠ "spectral")) := by
  refine ⟨?_, fun _ => rfl, fun _ => rfl, ?_⟩
  · intro L nx
    cases hnx : init_nx nx with
    | error e =>
      have hb : badLength nx := (isErr_init_nx nx).mp (by rw [hnx]; rfl)
      simp [spectralLES_init_validate, hnx, isErr, hb]
    | ok n =>
      have hb : ¬ badLength nx := by
        intro hbad
        have h := (isErr_init_nx nx).mpr hbad
        rw [hnx] at h
        simp [isErr] at h
      cases hL : init_L L with
      | error e =>
        have hbL : badLength L := (isErr_init_L L).mp (by rw [hL]; rfl)
        simp [spectralLES_init_validate, hnx, hL, isErr, hbL]
      | ok l =>
        have hbL : ¬ badLength L := by
          intro hbad
          have h := (isErr_init_L L).mpr hbad
          rw [hL] at h
          simp [isErr] at h
        simp [spectralLES_init_validate, hnx, hL, isErr, hb, hbL]
  · intro kf Gtype k_kf_arg
    simp only [filter_kernel]
    split_ifs with h1 h2 h3
    · simp [isErr, h1]
    · simp [isErr, h1, h2]
    · simp [isErr, h1, h2, h3]
    · simp [isErr, h1, h2, h3]

/-! ## Class and instance attributes (C2)

`RK4_integrate` invokes `self.computeAD()` at every stage (line 658).  Python
resolves the attribute by consulting the instance dictionary (populated by
`__init__`) and then the class dictionary (the `def` statements of the class
body); a miss raises `AttributeError`. -/

/-- The method names bound in the class body of `spectralLES` (every `def`
statement, lines 63-621). -/
def spectralLES_class_methods : List String :=
  ["__init__", "__enter__", "__exit__", "filter_kernel", "filter_3D_array",
   "Initialize_Taylor_Green_vortex", "get_random_HIT_spectrum",
   "Initialize_HIT_random_spectrum", "computeSource_HIT_random_forcing",
   "computeSource_HIT_linear_forcing", "computeSource_Smagorinksy_SGS",
   "computeSourse_NonlinearModel_SGS", "computeSource_DynamicSmagorinksy_SGS",
   "computeAD_vorticity_formulation", "new_dt_const_nu", "RK4_integrate"]

/-- The instance attributes assigned by `__init__` (lines 66-187). -/
def spectralLES_init_instance_attrs : List String :=
  ["comm", "nx", "L", "nu", "dx", "Nx", "Nxinv", "nk", "dk", "nnx", "ixs",
   "ixe", "X", "nnk", "iks", "ike", "K", "Ksq", "K_Ksq", "les_scale",
   "les_filter", "test_scale", "test_filter", "forcing_filter", "forcing_rate",
   "C", "D", "D_test", "smag_coef", "nuTmax", "U", "U_test", "omga", "A", "R",
   "S_mod_S_ij_les", "L_dyn", "M_dyn", "U_hat", "U_hat_test", "U_hat0",
   "U_hat1", "S_hat", "dU"]

/-- Python attribute lookup on an instance: instance dictionary first, then
class dictionary; a miss raises `AttributeError`. -/
def getattr_lookup (instance_attrs class_attrs : List String) (name : String) :
    Except String String :=
  if name ∈ instance_attrs ∨ name ∈ class_attrs then Except.ok name
  else Except.error ("AttributeError: " ++ name)

/-- The attribute name the RK4 stage loop resolves for its
advection-diffusion call, `self.computeAD()` (line 658). -/
def RK4_stage_AD_attribute : String := "computeAD"

/-- C2: on an instance exactly as produced by the constructor, resolving the
`computeAD` attribute that every RK4 stage invokes raises `AttributeError`
(first conjunct), although `computeAD_vorticity_formulation` does exist
(second conjunct); binding an instance attribute named `computeAD` first
makes the lookup succeed (third conjunct). -/
theorem rk4_computeAD_attribute_error :
    getattr_lookup spectralLES_init_instance_attrs spectralLES_class_methods
        RK4_stage_AD_attribute
      = Except.error "AttributeError: computeAD" ∧
    getattr_lookup spectralLES_init_instance_attrs spectralLES_class_methods
        "computeAD_vorticity_formulation"
      = Except.ok "computeAD_vorticity_formulation" ∧
    getattr_lookup (RK4_stage_AD_attribute :: spectralLES_init_instance_attrs)
        spectralLES_class_methods RK4_stage_AD_attribute
      = Except.ok RK4_stage_AD_attribute := by
  exact ⟨rfl, rfl, rfl⟩

/-! ## Zero-mode gain of the filter kernels (C4)

At the zero wavenumber mode the integer wavevector is `0`, so the isotropic
normalized wavenumber `kmag/kf` is `0` for every cutoff `kf`. -/

/-- C4 counterexample: for the `tophat` kernel the claim fails.  At the zero
mode the code evaluates `np.sin(pi*0)/(pi*0**2)`, a `0/0` indeterminate
(`NaN` in floating point; `0` under Lean's junk-value division) — not `1`.
Concretely, `filter_kernel` with `Gtype='tophat'` and cutoff `kf = 8` returns
a transfer function whose zero-mode value is `tophat_Ghat 0 ≠ 1`. -/
theorem tophat_zero_mode_not_unity :
    kmag_iso (fun _ => 2 * Real.pi) (fun _ => 0) / 8 = 0 ∧
    Real.sin (Real.pi * (0 : ℝ)) = 0 ∧ Real.pi * (0 : ℝ) ^ 2 = 0 ∧
    tophat_Ghat 0 = 0 ∧ tophat_Ghat 0 ≠ 1 ∧
    filter_kernel (ι := Unit) (κ := Unit) (fun _ _ => 0) (fun _ _ => 0)
        (fun _ => 2 * Real.pi) (fun _ _ => 0) () 8 "tophat" none
      = Except.ok (fun _ =>
          ((tophat_Ghat (kmag_iso (fun _ => 2 * Real.pi) (fun _ => 0) / 8) : ℝ) : ℂ)) := by
  have hk : kmag_iso (fun _ => 2 * Real.pi) (fun _ => 0) / 8 = 0 := by
    simp [kmag_iso]
  have ht : tophat_Ghat 0 = 0 := by
    simp [tophat_Ghat]
  refine ⟨hk, by simp, by simp, ht, by rw [ht]; norm_num, ?_⟩
  simp only [filter_kernel]
  norm_num

/-- C4 (amended): the unit-DC-gain invariant holds for the `spectral` and
`comp_exp` kernels but not for `tophat`.  At the zero mode (normalized
wavenumber `kmag_iso L 0 / kf = 0` for every cutoff `kf`), the sharp spectral
cutoff equals `1`, and the compact-exponential kernel — normalized by its own
zero-mode coefficient — equals `1` exactly and is real, provided that
coefficient is non-zero. -/
theorem spectral_comp_exp_unit_DC_gain {ι κ : Type} (rfft3 : (ι → ℝ) → κ → ℂ)
    (irfft3 : (κ → ℂ) → ι → ℝ) (L : Fin 3 → ℝ) (kf : ℝ) (k_kf : κ → ℝ)
    (zero_mode : κ) (hzero : k_kf zero_mode = 0)
    (hDC : rfft3 (fun x =>
        (irfft3 (fun k => ((comp_exp_Ghat_pre (k_kf k) : ℝ) : ℂ)) x) ^ 2) zero_mode ≠ 0) :
    kmag_iso L (fun _ => 0) / kf = 0 ∧
    spectral_Ghat (k_kf zero_mode) = 1 ∧
    comp_exp_Ghat rfft3 irfft3 k_kf zero_mode zero_mode = 1 := by
  refine ⟨by simp [kmag_iso], ?_, ?_⟩
  · rw [hzero]
    simp [spectral_Ghat]
  · simp only [comp_exp_Ghat]
    rw [mul_one_div, div_self hDC]
    simp

/-- Witness for the C4 amended theorem: on a one-point grid with
`rfft3 f = f ()`, `irfft3 f = (f ()).re`, the compact-exponential template at
the zero mode is `exp 0 = 1`, so the DC normalizer is non-zero and both
kernels have unit zero-mode gain. -/
theorem spectral_comp_exp_unit_DC_gain_witness :
    kmag_iso (fun _ => 2 * Real.pi) (fun _ => 0) / 8 = 0 ∧
    spectral_Ghat ((fun _ : Unit => (0 : ℝ)) ()) = 1 ∧
    comp_exp_Ghat (ι := Unit) (κ := Unit) (fun f _ => ((f () : ℝ) : ℂ))
      (fun f _ => (f ()).re) (fun _ => 0) () () = 1 :=
  spectral_comp_exp_unit_DC_gain (fun f _ => ((f () : ℝ) : ℂ)) (fun f _ => (f ()).re)
    (fun _ => 2 * Real.pi) 8 (fun _ => 0) () rfl
    (by simp [comp_exp_Ghat_pre]; norm_num)

/-! ## `filter_3D_array` and the caller's `result` buffer (C10)

Python passes numpy arrays by object reference.  A tiny addressed store
models this: names are bound to addresses, and (per the spec's transform
contract) `irfft3` called without an output argument returns a freshly
allocated array.  The assignment `result = irfft3(self.comm, fft_filtered)`
on line 273 rebinds the local name only. -/

structure Heap (V : Type) where
  store : Nat → V
  next : Nat

def Heap.alloc {V : Type} (h : Heap V) (v : V) : Heap V × Nat :=
  (⟨fun n => if n = h.next then v else h.store n, h.next + 1⟩, h.next)

/-- The filtered-field value computed by `filter_3D_array` (lines 265-273):
forward transform, multiply by the LES filter when `scale_k` matches the LES
cutoff, by the test filter when it matches the test cutoff, otherwise by an
ad hoc sharp spectral kernel at that cutoff, then inverse transform. -/
noncomputable def filter_3D_value {ι κ : Type} (rfft3 : (ι → ℝ) → κ → ℂ)
    (irfft3 : (κ → ℂ) → ι → ℝ) (L : Fin 3 → ℝ) (K : Fin 3 → κ → ℤ)
    (les_scale test_scale : ℝ) (les_filter test_filter : κ → ℂ)
    (array : ι → ℝ) (scale_k : ℝ) : ι → ℝ :=
  let fft_array := rfft3 array
  let fft_filtered :=
    if scale_k = les_scale then fun k => fft_array k * les_filter k
    else if scale_k = test_scale then fun k => fft_array k * test_filter k
    else fun k => fft_array k *
      ((spectral_Ghat (kmag_iso L (fun i => K i k) / scale_k) : ℝ) : ℂ)
  irfft3 fft_filtered

/-- The `filter_3D_array` method with Python reference semantics: `array` and
`result` are addresses in the store; the filtered field is written to a
freshly allocated address which is returned, while the local name `result` is
merely rebound (line 273) and the caller's buffer is never written. -/
noncomputable def filter_3D_array {ι κ : Type} (rfft3 : (ι → ℝ) → κ → ℂ)
    (irfft3 : (κ → ℂ) → ι → ℝ) (L : Fin 3 → ℝ) (K : Fin 3 → κ → ℤ)
    (les_scale test_scale : ℝ) (les_filter test_filter : κ → ℂ)
    (h : Heap (ι → ℝ)) (array : Nat) (scale_k : ℝ) (result : Nat) :
    Heap (ι → ℝ) × Nat :=
  h.alloc (filter_3D_value rfft3 irfft3 L K les_scale test_scale
    les_filter test_filter (h.store array) scale_k)

/-- C10: `filter_3D_array` never writes into the caller-supplied `result`
buffer: for any allocated address `result`, the store at `result` is
unchanged after the call, the returned address is distinct from `result`, and
the filtered field is delivered only through the returned (freshly allocated)
address. -/
theorem filter_3D_array_preserves_result_buffer {ι κ : Type}
    (rfft3 : (ι → ℝ) → κ → ℂ) (irfft3 : (κ → ℂ) → ι → ℝ)
    (L : Fin 3 → ℝ) (K : Fin 3 → κ → ℤ)
    (les_scale test_scale : ℝ) (les_filter test_filter : κ → ℂ)
    (h : Heap (ι → ℝ)) (array result : Nat) (scale_k : ℝ)
    (hres : result < h.next) :
    ((filter_3D_array rfft3 irfft3 L K les_scale test_scale les_filter
        test_filter h array scale_k result).1.store result = h.store result) ∧
    ((filter_3D_array rfft3 irfft3 L K les_scale test_scale les_filter
        test_filter h array scale_k result).2 ≠ result) ∧
    ((filter_3D_array rfft3 irfft3 L K les_scale test_scale les_filter
        test_filter h array scale_k result).1.store
      (filter_3D_array rfft3 irfft3 L K les_scale test_scale les_filter
        test_filter h array scale_k result).2
      = filter_3D_value rfft3 irfft3 L K les_scale test_scale les_filter
          test_filter (h.store array) scale_k) := by
  refine ⟨?_, ?_, ?_⟩
  · simp only [filter_3D_array, Heap.alloc]
    rw [if_neg (Nat.ne_of_lt hres)]
  · simp only [filter_3D_array, Heap.alloc]
    exact Nat.ne_of_gt hres
  · simp [filter_3D_array, Heap.alloc]

/-- Witness for C10 on a one-point grid with a one-slot heap. -/
theorem filter_3D_array_preserves_result_buffer_witness :
    ((filter_3D_array (ι := Unit) (κ := Unit) (fun _ _ => 0) (fun _ _ => 0)
        (fun _ => 1) (fun _ _ => 0) 1 2 (fun _ => 1) (fun _ => 1)
        ⟨fun _ _ => 0, 1⟩ 0 1 0).1.store 0 = (⟨fun _ _ => 0, 1⟩ : Heap (Unit → ℝ)).store 0) ∧
    ((filter_3D_array (ι := Unit) (κ := Unit) (fun _ _ => 0) (fun _ _ => 0)
        (fun _ => 1) (fun _ _ => 0) 1 2 (fun _ => 1) (fun _ => 1)
        ⟨fun _ _ => 0, 1⟩ 0 1 0).2 ≠ 0) ∧
    ((filter_3D_array (ι := Unit) (κ := Unit) (fun _ _ => 0) (fun _ _ => 0)
        (fun _ => 1) (fun _ _ => 0) 1 2 (fun _ => 1) (fun _ => 1)
        ⟨fun _ _ => 0, 1⟩ 0 1 0).1.store
      (filter_3D_array (ι := Unit) (κ := Unit) (fun _ _ => 0) (fun _ _ => 0)
        (fun _ => 1) (fun _ _ => 0) 1 2 (fun _ => 1) (fun _ => 1)
        ⟨fun _ _ => 0, 1⟩ 0 1 0).2
      = filter_3D_value (ι := Unit) (κ := Unit) (fun _ _ => 0) (fun _ _ => 0)
          (fun _ => 1) (fun _ _ => 0) 1 2 (fun _ => 1) (fun _ => 1)
          ((⟨fun _ _ => 0, 1⟩ : Heap (Unit → ℝ)).store 0) 1) :=
  filter_3D_array_preserves_result_buffer (fun _ _ => 0) (fun _ _ => 0)
    (fun _ => 1) (fun _ _ => 0) 1 2 (fun _ => 1) (fun _ => 1)
    ⟨fun _ _ => 0, 1⟩ 0 0 1 (by norm_num)

/-! ## Solver state (`__init__`, lines 168-187)

The mutable arrays held by a `spectralLES` instance.  Physical-space scalar
fields live on the rank-local grid `ι`, spectral-space fields on the local
set of retained modes `κ`. -/

structure LESVars (ι κ : Type) where
  U : Fin 3 → ι → ℝ
  U_test : Fin 3 → ι → ℝ
  omga : Fin 3 → ι → ℝ
  A : Fin 3 → Fin 3 → ι → ℝ
  R : Fin 3 → Fin 3 → ι → ℝ
  S_mod_S_ij_les : Fin 3 → Fin 3 → ι → ℝ
  L_dyn : Fin 3 → Fin 3 → ι → ℝ
  M_dyn : Fin 3 → Fin 3 → ι → ℝ
  U_hat : Fin 3 → κ → ℂ
  U_hat_test : Fin 3 → κ → ℂ
  U_hat0 : Fin 3 → κ → ℂ
  U_hat1 : Fin 3 → κ → ℂ
  S_hat : Fin 3 → κ → ℂ
  dU : Fin 3 → κ → ℂ
  nuTmax : ℝ

/-! ## Forcing source terms (lines 345-391, C6) -/

/-- `self.comm.allreduce(psum(self.omga*self.U))`: `psum` (teslacu.stats) is
the rank-local sum of all entries and the default-op allreduce adds the
ranks, so the result is the global grid sum of the pointwise dot product. -/
noncomputable def allreduce_psum_dot {ι : Type} [Fintype ι]
    (omga U : Fin 3 → ι → ℝ) : ℝ :=
  ∑ x : ι, ∑ i : Fin 3, omga i x * U i x

/-- A second definition following the spec's words, for comparison with the
code: the domain-averaged dot product of two vector fields (the grid sum of
the pointwise dot product divided by the number of grid points). -/
noncomputable def spec_domain_averaged_dot {ι : Type} [Fintype ι]
    (f u : Fin 3 → ι → ℝ) : ℝ :=
  allreduce_psum_dot f u / (Fintype.card ι)

/-- `computeSource_HIT_random_forcing` (lines 345-364).  `random_S_hat`
stands for the spectrum that `get_random_HIT_spectrum(-5./3., nk[-1], rseed)`
deposits in `S_hat`; the method then applies the forcing filter, inverse
transforms into `omga`, computes `dvScale` from the transfer-rate sum times
`dx.prod()`, and adds `dvScale*S_hat` to `dU`. -/
noncomputable def computeSource_HIT_random_forcing {ι κ : Type} [Fintype ι]
    (irfft3 : (κ → ℂ) → ι → ℝ) (forcing_filter : κ → ℂ)
    (forcing_rate dx_prod : ℝ) (random_S_hat : Fin 3 → κ → ℂ)
    (s : LESVars ι κ) : LESVars ι κ :=
  let S_hat := fun (i : Fin 3) (k : κ) => random_S_hat i k * forcing_filter k
  let omga := fun i : Fin 3 => irfft3 (S_hat i)
  let dvScale := forcing_rate / (allreduce_psum_dot omga s.U * dx_prod)
  { s with S_hat := S_hat, omga := omga,
           dU := fun i k => s.dU i k + (dvScale : ℂ) * S_hat i k }

/-- `computeSource_HIT_linear_forcing` (lines 366-391): the band-limited
current velocity is the forcing direction; `S_hat` is rescaled in place by
`dvScale` and added to `dU`. -/
noncomputable def computeSource_HIT_linear_forcing {ι κ : Type} [Fintype ι]
    (irfft3 : (κ → ℂ) → ι → ℝ) (forcing_filter : κ → ℂ)
    (forcing_rate dx_prod : ℝ) (s : LESVars ι κ) : LESVars ι κ :=
  let S_hat := fun (i : Fin 3) (k : κ) => s.U_hat i k * forcing_filter k
  let omga := fun i : Fin 3 => irfft3 (S_hat i)
  let dvScale := forcing_rate / (allreduce_psum_dot omga s.U * dx_prod)
  let S_hat := fun (i : Fin 3) (k : κ) => (dvScale : ℂ) * S_hat i k
  { s with S_hat := S_hat, omga := omga,
           dU := fun i k => s.dU i k + S_hat i k }

lemma allreduce_psum_dot_smul {ι : Type} [Fintype ι] (c : ℝ)
    (f u : Fin 3 → ι → ℝ) :
    allreduce_psum_dot (fun i x => c * f i x) u = c * allreduce_psum_dot f u := by
  simp [allreduce_psum_dot, Finset.mul_sum, mul_assoc]

/-- C6 counterexample: the quantity the forcing evaluators drive to
`eps_inj` is the grid sum of the dot product times the cell volume
`dx.prod()` (a discrete volume integral), not the domain-averaged dot
product.  On a one-point grid with cell volume `dx.prod() = 2`, unit
velocity and unit candidate field, `eps_inj = 1`: the added field's volume
integral against the velocity is `1 = eps_inj`, but its domain-averaged dot
product is `1/2 ≠ eps_inj`, for both evaluators. -/
theorem forcing_domain_average_counterexample :
    (spec_domain_averaged_dot (ι := Unit)
        (fun i => (fun f _ => (f ()).re)
          ((computeSource_HIT_random_forcing (ι := Unit) (κ := Unit)
              (fun f _ => (f ()).re) (fun _ => 1) 1 2 (fun _ _ => 1)
              ⟨fun _ _ => 1, fun _ _ => 0, fun _ _ => 0, fun _ _ _ => 0,
               fun _ _ _ => 0, fun _ _ _ => 0, fun _ _ _ => 0, fun _ _ _ => 0,
               fun _ _ => 1, fun _ _ => 0, fun _ _ => 0, fun _ _ => 0,
               fun _ _ => 0, fun _ _ => 0, 0⟩).dU i))
        (fun _ _ => 1) ≠ 1) ∧
    (allreduce_psum_dot (ι := Unit)
        (fun i => (fun f _ => (f ()).re)
          ((computeSource_HIT_random_forcing (ι := Unit) (κ := Unit)
              (fun f _ => (f ()).re) (fun _ => 1) 1 2 (fun _ _ => 1)
              ⟨fun _ _ => 1, fun _ _ => 0, fun _ _ => 0, fun _ _ _ => 0,
               fun _ _ _ => 0, fun _ _ _ => 0, fun _ _ _ => 0, fun _ _ _ => 0,
               fun _ _ => 1, fun _ _ => 0, fun _ _ => 0, fun _ _ => 0,
               fun _ _ => 0, fun _ _ => 0, 0⟩).dU i))
        (fun _ _ => 1) * 2 = 1) ∧
    (spec_domain_averaged_dot (ι := Unit)
        (fun i => (fun f _ => (f ()).re)
          ((computeSource_HIT_linear_forcing (ι := Unit) (κ := Unit)
              (fun f _ => (f ()).re) (fun _ => 1) 1 2
              ⟨fun _ _ => 1, fun _ _ => 0, fun _ _ => 0, fun _ _ _ => 0,
               fun _ _ _ => 0, fun _ _ _ => 0, fun _ _ _ => 0, fun _ _ _ => 0,
               fun _ _ => 1, fun _ _ => 0, fun _ _ => 0, fun _ _ => 0,
               fun _ _ => 0, fun _ _ => 0, 0⟩).dU i))
        (fun _ _ => 1) ≠ 1) := by
  refine ⟨?_, ?_, ?_⟩ <;>
    · simp only [computeSource_HIT_random_forcing, computeSource_HIT_linear_forcing,
        spec_domain_averaged_dot, allreduce_psum_dot]
      norm_num [Fin.sum_univ_three]

/-- C6 (amended): assuming a non-zero instantaneous transfer rate, each
forcing evaluator adds to `dU` the candidate field rescaled so that the
*discrete volume integral* of the added field's dot product with the current
velocity — the grid sum times the cell volume `dx.prod()`, which is the
domain-averaged dot product times the domain volume — equals the configured
injection rate `eps_inj` (`forcing_rate`).  `hlin` is the transform
contract's linearity in a real scalar. -/
theorem forcing_rescaled_injection_rate {ι κ : Type} [Fintype ι]
    (irfft3 : (κ → ℂ) → ι → ℝ) (forcing_filter : κ → ℂ)
    (forcing_rate dx_prod : ℝ) (random_S_hat : Fin 3 → κ → ℂ) (s : LESVars ι κ)
    (hlin : ∀ (c : ℝ) (f : κ → ℂ),
      irfft3 (fun k => (c : ℂ) * f k) = fun x => c * irfft3 f x)
    (hr : allreduce_psum_dot
        (fun i => irfft3 (fun k => random_S_hat i k * forcing_filter k)) s.U
        * dx_prod ≠ 0)
    (hl : allreduce_psum_dot
        (fun i => irfft3 (fun k => s.U_hat i k * forcing_filter k)) s.U
        * dx_prod ≠ 0) :
    allreduce_psum_dot
        (fun i => irfft3 (fun k =>
          (computeSource_HIT_random_forcing irfft3 forcing_filter forcing_rate
              dx_prod random_S_hat s).dU i k - s.dU i k)) s.U * dx_prod
      = forcing_rate ∧
    allreduce_psum_dot
        (fun i => irfft3 (fun k =>
          (computeSource_HIT_linear_forcing irfft3 forcing_filter forcing_rate
              dx_prod s).dU i k - s.dU i k)) s.U * dx_prod
      = forcing_rate := by
  constructor
  · simp only [computeSource_HIT_random_forcing, add_sub_cancel_left]
    rw [funext fun i => hlin _ _]
    rw [allreduce_psum_dot_smul]
    field_simp
    ring
  · simp only [computeSource_HIT_linear_forcing, add_sub_cancel_left]
    rw [funext fun i => hlin _ _]
    rw [allreduce_psum_dot_smul]
    field_simp
    ring

/-- Witness for the C6 amended theorem on a one-point grid with unit data and
`dx.prod() = 2`: the transfer rate is `6 ≠ 0` and both added fields inject
exactly `eps_inj = 1`. -/
theorem forcing_rescaled_injection_rate_witness :
    allreduce_psum_dot (ι := Unit)
        (fun i => (fun (f : Unit → ℂ) (_ : Unit) => (f ()).re) (fun k =>
          (computeSource_HIT_random_forcing (ι := Unit) (κ := Unit)
              (fun f _ => (f ()).re) (fun _ => 1) 1 2 (fun _ _ => 1)
              ⟨fun _ _ => 1, fun _ _ => 0, fun _ _ => 0, fun _ _ _ => 0,
               fun _ _ _ => 0, fun _ _ _ => 0, fun _ _ _ => 0, fun _ _ _ => 0,
               fun _ _ => 1, fun _ _ => 0, fun _ _ => 0, fun _ _ => 0,
               fun _ _ => 0, fun _ _ => 0, 0⟩).dU i k -
          (⟨fun _ _ => 1, fun _ _ => 0, fun _ _ => 0, fun _ _ _ => 0,
            fun _ _ _ => 0, fun _ _ _ => 0, fun _ _ _ => 0, fun _ _ _ => 0,
            fun _ _ => 1, fun _ _ => 0, fun _ _ => 0, fun _ _ => 0,
            fun _ _ => 0, fun _ _ => 0, 0⟩ : LESVars Unit Unit).dU i k))
        (⟨fun _ _ => 1, fun _ _ => 0, fun _ _ => 0, fun _ _ _ => 0,
          fun _ _ _ => 0, fun _ _ _ => 0, fun _ _ _ => 0, fun _ _ _ => 0,
          fun _ _ => 1, fun _ _ => 0, fun _ _ => 0, fun _ _ => 0,
          fun _ _ => 0, fun _ _ => 0, 0⟩ : LESVars Unit Unit).U * 2 = 1 ∧
    allreduce_psum_dot (ι := Unit)
        (fun i => (fun (f : Unit → ℂ) (_ : Unit) => (f ()).re) (fun k =>
          (computeSource_HIT_linear_forcing (ι := Unit) (κ := Unit)
              (fun f _ => (f ()).re) (fun _ => 1) 1 2
              ⟨fun _ _ => 1, fun _ _ => 0, fun _ _ => 0, fun _ _ _ => 0,
               fun _ _ _ => 0, fun _ _ _ => 0, fun _ _ _ => 0, fun _ _ _ => 0,
               fun _ _ => 1, fun _ _ => 0, fun _ _ => 0, fun _ _ => 0,
               fun _ _ => 0, fun _ _ => 0, 0⟩).dU i k -
          (⟨fun _ _ => 1, fun _ _ => 0, fun _ _ => 0, fun _ _ _ => 0,
            fun _ _ _ => 0, fun _ _ _ => 0, fun _ _ _ => 0, fun _ _ _ => 0,
            fun _ _ => 1, fun _ _ => 0, fun _ _ => 0, fun _ _ => 0,
            fun _ _ => 0, fun _ _ => 0, 0⟩ : LESVars Unit Unit).dU i k))
        (⟨fun _ _ => 1, fun _ _ => 0, fun _ _ => 0, fun _ _ _ => 0,
          fun _ _ _ => 0, fun _ _ _ => 0, fun _ _ _ => 0, fun _ _ _ => 0,
          fun _ _ => 1, fun _ _ => 0, fun _ _ => 0, fun _ _ => 0,
          fun _ _ => 0, fun _ _ => 0, 0⟩ : LESVars Unit Unit).U * 2 = 1 :=
  forcing_rescaled_injection_rate (fun f _ => (f ()).re) (fun _ => 1) 1 2
    (fun _ _ => 1)
    ⟨fun _ _ => 1, fun _ _ => 0, fun _ _ => 0, fun _ _ _ => 0,
     fun _ _ _ => 0, fun _ _ _ => 0, fun _ _ _ => 0, fun _ _ _ => 0,
     fun _ _ => 1, fun _ _ => 0, fun _ _ => 0, fun _ _ => 0,
     fun _ _ => 0, fun _ _ => 0, 0⟩
    (fun c f => by funext x; simp [Complex.re_ofReal_mul])
    (by norm_num [allreduce_psum_dot, Fin.sum_univ_three])
    (by norm_num [allreduce_psum_dot, Fin.sum_univ_three])

/-! ## SGS source terms (lines 393-569, C3 and C8) -/

/-- `np.max` of a local array. -/
noncomputable def np_max {ι : Type} [Fintype ι] [Nonempty ι] (f : ι → ℝ) : ℝ :=
  Finset.univ.sup' Finset.univ_nonempty f

/-- `np.mean` of a local array: the sum of the rank-local entries divided by
their count.  No inter-process reduction is involved. -/
noncomputable def np_mean {ι : Type} [Fintype ι] (f : ι → ℝ) : ℝ :=
  (∑ x : ι, f x) / (Fintype.card ι)

/-- The symmetric rate-of-strain working tensor, assigned identically in all
three SGS evaluators:
`A[j,i] = 0.5*irfft3(comm, 1j*(K[2-j]*U_hat[i] + K[2-i]*U_hat[j]))`. -/
noncomputable def strain_tensor {ι κ : Type} (irfft3 : (κ → ℂ) → ι → ℝ)
    (K : Fin 3 → κ → ℤ) (U_hat : Fin 3 → κ → ℂ) (j i : Fin 3) : ι → ℝ :=
  fun x => 0.5 * irfft3 (fun k => Complex.I *
    ((K (2 - j) k : ℂ) * U_hat i k + (K (2 - i) k : ℂ) * U_hat j k)) x

/-- The rate-of-rotation working tensor of the nonlinear model (lines
453-456): `R[j,i] = 0.5*irfft3(comm, 1j*(K[2-j]*U_hat[i] - K[2-i]*U_hat[j]))`. -/
noncomputable def rotation_tensor {ι κ : Type} (irfft3 : (κ → ℂ) → ι → ℝ)
    (K : Fin 3 → κ → ℤ) (U_hat : Fin 3 → κ → ℂ) (j i : Fin 3) : ι → ℝ :=
  fun x => 0.5 * irfft3 (fun k => Complex.I *
    ((K (2 - j) k : ℂ) * U_hat i k - (K (2 - i) k : ℂ) * U_hat j k)) x

/-- `computeSource_Smagorinksy_SGS` (lines 393-436): strain tensor, eddy
viscosity `2*nu_T = smag_coef*|S|` in `omga[0]`, global maximum tracked in
`nuTmax`, and the divergence of `A[j,i]*omga[0]` accumulated into `S_hat`
and added to `dU`. -/
noncomputable def computeSource_Smagorinksy_SGS {ι κ : Type} [Fintype ι]
    [Nonempty ι] (rfft3 : (ι → ℝ) → κ → ℂ) (irfft3 : (κ → ℂ) → ι → ℝ)
    (K : Fin 3 → κ → ℤ) (smag_coef : ℝ) (allreduce_max : ℝ → ℝ)
    (s : LESVars ι κ) : LESVars ι κ :=
  let A := fun j i => strain_tensor irfft3 K s.U_hat j i
  let omga0 := fun x : ι => Real.sqrt (2.0 * ∑ i, ∑ j, (A i j x) ^ 2)
  let omga0 := fun x : ι => omga0 x * smag_coef
  let nuTmax := allreduce_max (np_max omga0)
  let S_hat := fun (i : Fin 3) (k : κ) =>
    ∑ j, Complex.I * (K (2 - j) k : ℂ) * rfft3 (fun x => A j i x * omga0 x) k
  { s with A := A, omga := Function.update s.omga 0 omga0,
           nuTmax := nuTmax, S_hat := S_hat,
           dU := fun i k => s.dU i k + S_hat i k }

/-- `computeSourse_NonlinearModel_SGS` (lines 438-491; the source spells it
`Sourse`): the fixed-coefficient nonlinear mixed model. -/
noncomputable def computeSourse_NonlinearModel_SGS {ι κ : Type}
    (rfft3 : (ι → ℝ) → κ → ℂ) (irfft3 : (κ → ℂ) → ι → ℝ)
    (K : Fin 3 → κ → ℤ) (D : ℝ) (C : Fin 3 → ℝ) (s : LESVars ι κ) :
    LESVars ι κ :=
  let A := fun j i => strain_tensor irfft3 K s.U_hat j i
  let S_S_invar := fun x : ι => ∑ i, ∑ j, (A i j x) ^ 2
  let R := fun j i => rotation_tensor irfft3 K s.U_hat j i
  let S_mod_S_ij_les := fun (i j : Fin 3) (x : ι) =>
    A i j x * Real.sqrt (2.0 * S_S_invar x)
  let tensor2 := fun (i j : Fin 3) (x : ι) =>
    ∑ m : Fin 3, (A i m x * R m j x - R i m x * A m j x)
  let tensor3 := fun (i j : Fin 3) (x : ι) =>
    (∑ m : Fin 3, A i m x * A m j x) - (if i = j then 1 / 3 * S_S_invar x else 0)
  let S_hat := fun (i : Fin 3) (k : κ) =>
    ∑ j, Complex.I * (K (2 - j) k : ℂ) * rfft3 (fun x =>
      -D ^ 2 * (-2 * C 0 ^ 2 * S_mod_S_ij_les j i x
        + C 1 * tensor2 j i x + C 2 * tensor3 j i x)) k
  { s with A := A, R := R, S_mod_S_ij_les := S_mod_S_ij_les,
           S_hat := S_hat, dU := fun i k => s.dU i k + S_hat i k }

/-- The dynamic coefficient estimate of lines 542-552 (the `flag = 1` branch
that the code always takes): `L_M` and `M_M` are accumulated pointwise over
the tensor indices, then `C_s_sqr = np.divide(np.mean(L_M), np.mean(M_M))` —
a ratio of `np.mean` averages of the rank-local arrays. -/
noncomputable def Cs_sqr_of {ι : Type} [Fintype ι]
    (L_dyn M_dyn : Fin 3 → Fin 3 → ι → ℝ) : ℝ :=
  let L_M := fun x : ι => ∑ i, ∑ j, L_dyn i j x * M_dyn i j x
  let M_M := fun x : ι => ∑ i, ∑ j, M_dyn i j x * M_dyn i j x
  np_mean L_M / np_mean M_M

/-- The LES-scale `|S|*S_ij` tensor of lines 503-513. -/
noncomputable def dynamic_S_mod_S_ij {ι κ : Type} (irfft3 : (κ → ℂ) → ι → ℝ)
    (K : Fin 3 → κ → ℤ) (U_hat : Fin 3 → κ → ℂ) : Fin 3 → Fin 3 → ι → ℝ :=
  let S_ij_les := fun j i => strain_tensor irfft3 K U_hat j i
  let S_mod_les := fun x : ι => Real.sqrt (2.0 * ∑ i, ∑ j, (S_ij_les i j x) ^ 2)
  fun i j x => S_ij_les i j x * S_mod_les x

/-- The traceless Germano (resolved) stress `L_dyn` of lines 529-532 and
538-540: `((Ui)_les*(Uj)_les)_test - (Ui)_test*(Uj)_test`, minus a third of
its trace on the diagonal. -/
noncomputable def dynamic_L_dyn {ι κ : Type} [Fintype ι]
    (rfft3 : (ι → ℝ) → κ → ℂ) (irfft3 : (κ → ℂ) → ι → ℝ) (L : Fin 3 → ℝ)
    (K : Fin 3 → κ → ℤ) (les_scale test_scale : ℝ)
    (les_filter test_filter : κ → ℂ) (U_hat : Fin 3 → κ → ℂ) :
    Fin 3 → Fin 3 → ι → ℝ :=
  let U := fun i : Fin 3 => irfft3 (U_hat i)
  let U_hat_test := fun (i : Fin 3) (k : κ) => U_hat i k * test_filter k
  let U_test := fun i : Fin 3 => irfft3 (U_hat_test i)
  let L_dyn0 := fun (i j : Fin 3) (x : ι) =>
    filter_3D_value rfft3 irfft3 L K les_scale test_scale les_filter
      test_filter (fun y => U i y * U j y) test_scale x
    - U_test i x * U_test j x
  let trace := fun x : ι => L_dyn0 0 0 x + L_dyn0 1 1 x + L_dyn0 2 2 x
  fun i j x => L_dyn0 i j x - (if i = j then 1 / 3 * trace x else 0)

/-- The dynamic-model tensor `M_dyn` of lines 534-537:
`-2*(D_test^2*|S|_test*(S_ij)_test - D^2*(|S|_les*(S_ij)_les)_test)`. -/
noncomputable def dynamic_M_dyn {ι κ : Type} [Fintype ι]
    (rfft3 : (ι → ℝ) → κ → ℂ) (irfft3 : (κ → ℂ) → ι → ℝ) (L : Fin 3 → ℝ)
    (K : Fin 3 → κ → ℤ) (les_scale test_scale : ℝ)
    (les_filter test_filter : κ → ℂ) (D D_test : ℝ)
    (U_hat : Fin 3 → κ → ℂ) : Fin 3 → Fin 3 → ι → ℝ :=
  let U_hat_test := fun (i : Fin 3) (k : κ) => U_hat i k * test_filter k
  let A := fun j i => strain_tensor irfft3 K U_hat_test j i
  let S_mod_test := fun x : ι => Real.sqrt (2.0 * ∑ i, ∑ j, (A i j x) ^ 2)
  fun i j x =>
    -2 * (D_test ^ 2 * (S_mod_test x * A i j x)
      - D ^ 2 * filter_3D_value rfft3 irfft3 L K les_scale test_scale
          les_filter test_filter (dynamic_S_mod_S_ij irfft3 K U_hat i j)
          test_scale x)

/-- `computeSource_DynamicSmagorinksy_SGS` (lines 493-569).  The working
buffers `U`, `U_test`, `U_hat_test`, `A`, `omga[0..2]`, `S_mod_S_ij_les`,
`L_dyn`, `M_dyn` end up holding exactly what the loops of the source leave in
them; the coefficient is `Cs_sqr_of` of the Germano tensors and rescales the
`|S|S_ij` tensor in place before its divergence is added to `dU`. -/
noncomputable def computeSource_DynamicSmagorinksy_SGS {ι κ : Type} [Fintype ι]
    (rfft3 : (ι → ℝ) → κ → ℂ) (irfft3 : (κ → ℂ) → ι → ℝ) (L : Fin 3 → ℝ)
    (K : Fin 3 → κ → ℤ) (les_scale test_scale : ℝ)
    (les_filter test_filter : κ → ℂ) (D D_test : ℝ) (s : LESVars ι κ) :
    LESVars ι κ :=
  let U := fun i : Fin 3 => irfft3 (s.U_hat i)
  let U_hat_test := fun (i : Fin 3) (k : κ) => s.U_hat i k * test_filter k
  let U_test := fun i : Fin 3 => irfft3 (U_hat_test i)
  let S_mod_S_ij_les := dynamic_S_mod_S_ij irfft3 K s.U_hat
  let A := fun j i => strain_tensor irfft3 K U_hat_test j i
  let S_mod_test := fun x : ι => Real.sqrt (2.0 * ∑ i, ∑ j, (A i j x) ^ 2)
  let L_dyn := dynamic_L_dyn rfft3 irfft3 L K les_scale test_scale les_filter
    test_filter s.U_hat
  let M_dyn := dynamic_M_dyn rfft3 irfft3 L K les_scale test_scale les_filter
    test_filter D D_test s.U_hat
  let C_s_sqr := Cs_sqr_of L_dyn M_dyn
  let C_s := Real.sqrt C_s_sqr
  let S_mod_S_ij_scaled := fun (i j : Fin 3) (x : ι) =>
    S_mod_S_ij_les i j x * (2 * (C_s * D) ^ 2)
  let S_hat := fun (i : Fin 3) (k : κ) =>
    ∑ j, Complex.I * (K (2 - j) k : ℂ) * rfft3 (S_mod_S_ij_scaled i j) k
  { s with U := U, U_hat_test := U_hat_test, U_test := U_test, A := A,
           omga := fun m =>
             if m = 0 then S_mod_test
             else if m = 1 then fun x => S_mod_test x * A 2 2 x
             else fun x => filter_3D_value rfft3 irfft3 L K les_scale
               test_scale les_filter test_filter (S_mod_S_ij_les 2 2)
               test_scale x,
           S_mod_S_ij_les := S_mod_S_ij_scaled, L_dyn := L_dyn, M_dyn := M_dyn,
           S_hat := S_hat, dU := fun i k => s.dU i k + S_hat i k }

/-- C3 counterexample: the means in `Cs^2 = np.mean(L_M)/np.mean(M_M)` are
rank-local `np.mean` averages with no `allreduce`, so they are not global
averages and processes need not agree.  In a two-process run whose global
`L_dyn` field is `1` on process 0's single point and `2` on process 1's
single point (with `M_dyn = 1` everywhere), process 0 computes `Cs^2 = 1`,
process 1 computes `Cs^2 = 2`, and neither equals the whole-domain average
ratio `3/2`. -/
theorem dynamic_Cs_not_global_average :
    Cs_sqr_of (ι := Fin 1) (fun _ _ _ => 1) (fun _ _ _ => 1) = 1 ∧
    Cs_sqr_of (ι := Fin 1) (fun _ _ _ => 2) (fun _ _ _ => 1) = 2 ∧
    Cs_sqr_of (ι := Fin 1) (fun _ _ _ => 1) (fun _ _ _ => 1)
      ≠ Cs_sqr_of (ι := Fin 1) (fun _ _ _ => 2) (fun _ _ _ => 1) ∧
    Cs_sqr_of (ι := Fin 2)
        (fun _ _ x => if x = 0 then 1 else 2) (fun _ _ _ => 1) = 3 / 2 := by
  have h1 : Cs_sqr_of (ι := Fin 1) (fun _ _ _ => 1) (fun _ _ _ => 1) = 1 := by
    norm_num [Cs_sqr_of, np_mean, Fin.sum_univ_three]
  have h2 : Cs_sqr_of (ι := Fin 1) (fun _ _ _ => 2) (fun _ _ _ => 1) = 2 := by
    norm_num [Cs_sqr_of, np_mean, Fin.sum_univ_three]
  refine ⟨h1, h2, by rw [h1, h2]; norm_num, ?_⟩
  norm_num [Cs_sqr_of, np_mean, Fin.sum_univ_three, Fin.sum_univ_two]

/-- C3 (amended): the dynamic coefficient is estimated as
`Cs^2 = mean(L_ij M_ij) / mean(M_ij M_ij)` where both means are `np.mean`
averages over the *process-local* subdomain (there is no global reduction;
the local mean equals the whole-domain mean only in a single-process run),
and the estimate is a single scalar ratio of means — not a per-point
division — which uniformly rescales the whole `|S|S_ij` tensor. -/
theorem dynamic_Cs_local_mean_ratio {ι κ : Type} [Fintype ι]
    (rfft3 : (ι → ℝ) → κ → ℂ) (irfft3 : (κ → ℂ) → ι → ℝ) (L : Fin 3 → ℝ)
    (K : Fin 3 → κ → ℤ) (les_scale test_scale : ℝ)
    (les_filter test_filter : κ → ℂ) (D D_test : ℝ) (s : LESVars ι κ) :
    Cs_sqr_of
        (dynamic_L_dyn rfft3 irfft3 L K les_scale test_scale les_filter
          test_filter s.U_hat)
        (dynamic_M_dyn rfft3 irfft3 L K les_scale test_scale les_filter
          test_filter D D_test s.U_hat)
      = np_mean (fun x => ∑ i, ∑ j,
            dynamic_L_dyn rfft3 irfft3 L K les_scale test_scale les_filter
              test_filter s.U_hat i j x *
            dynamic_M_dyn rfft3 irfft3 L K les_scale test_scale les_filter
              test_filter D D_test s.U_hat i j x)
        / np_mean (fun x => ∑ i, ∑ j,
            dynamic_M_dyn rfft3 irfft3 L K les_scale test_scale les_filter
              test_filter D D_test s.U_hat i j x *
            dynamic_M_dyn rfft3 irfft3 L K les_scale test_scale les_filter
              test_filter D D_test s.U_hat i j x) ∧
    (computeSource_DynamicSmagorinksy_SGS rfft3 irfft3 L K les_scale
        test_scale les_filter test_filter D D_test s).S_mod_S_ij_les
      = fun i j x => dynamic_S_mod_S_ij irfft3 K s.U_hat i j x *
          (2 * (Real.sqrt (Cs_sqr_of
            (dynamic_L_dyn rfft3 irfft3 L K les_scale test_scale les_filter
              test_filter s.U_hat)
            (dynamic_M_dyn rfft3 irfft3 L K les_scale test_scale les_filter
              test_filter D D_test s.U_hat)) * D) ^ 2) :=
  ⟨rfl, rfl⟩

/-- C8: each of the three SGS source evaluators leaves the spectral velocity
`U_hat` untouched, leaves the physical velocity `U` unchanged in value (the
dynamic variant rewrites it with `irfft3(U_hat)`, which under the solver's
stage invariant `U = irfft3(U_hat)` is the value it already has), and touches
the right-hand side only by adding its source tensor `S_hat` to the
accumulator `dU`. -/
theorem sgs_sources_preserve_velocity {ι κ : Type} [Fintype ι] [Nonempty ι]
    (rfft3 : (ι → ℝ) → κ → ℂ) (irfft3 : (κ → ℂ) → ι → ℝ) (L : Fin 3 → ℝ)
    (K : Fin 3 → κ → ℤ) (les_scale test_scale : ℝ)
    (les_filter test_filter : κ → ℂ) (smag_coef D D_test : ℝ)
    (C : Fin 3 → ℝ) (allreduce_max : ℝ → ℝ) (s : LESVars ι κ)
    (hU : s.U = fun i => irfft3 (s.U_hat i)) :
    ((computeSource_Smagorinksy_SGS rfft3 irfft3 K smag_coef allreduce_max
        s).U_hat = s.U_hat ∧
     (computeSource_Smagorinksy_SGS rfft3 irfft3 K smag_coef allreduce_max
        s).U = s.U ∧
     (computeSource_Smagorinksy_SGS rfft3 irfft3 K smag_coef allreduce_max
        s).dU = fun i k => s.dU i k +
          (computeSource_Smagorinksy_SGS rfft3 irfft3 K smag_coef
            allreduce_max s).S_hat i k) ∧
    ((computeSourse_NonlinearModel_SGS rfft3 irfft3 K D C s).U_hat = s.U_hat ∧
     (computeSourse_NonlinearModel_SGS rfft3 irfft3 K D C s).U = s.U ∧
     (computeSourse_NonlinearModel_SGS rfft3 irfft3 K D C s).dU
       = fun i k => s.dU i k +
          (computeSourse_NonlinearModel_SGS rfft3 irfft3 K D C s).S_hat i k) ∧
    ((computeSource_DynamicSmagorinksy_SGS rfft3 irfft3 L K les_scale
        test_scale les_filter test_filter D D_test s).U_hat = s.U_hat ∧
     (computeSource_DynamicSmagorinksy_SGS rfft3 irfft3 L K les_scale
        test_scale les_filter test_filter D D_test s).U = s.U ∧
     (computeSource_DynamicSmagorinksy_SGS rfft3 irfft3 L K les_scale
        test_scale les_filter test_filter D D_test s).dU
       = fun i k => s.dU i k +
          (computeSource_DynamicSmagorinksy_SGS rfft3 irfft3 L K les_scale
            test_scale les_filter test_filter D D_test s).S_hat i k) :=
  ⟨⟨rfl, rfl, rfl⟩, ⟨rfl, rfl, rfl⟩, ⟨rfl, hU.symm, rfl⟩⟩

/-- Witness for C8 on a one-point grid with the zero state, where the stage
invariant `U = irfft3(U_hat)` holds. -/
theorem sgs_sources_preserve_velocity_witness :
    ((computeSource_Smagorinksy_SGS (ι := Unit) (κ := Unit)
        (fun f _ => ((f () : ℂ))) (fun f _ => (f ()).re) (fun _ _ => 0) 1 id
        ⟨fun _ _ => 0, fun _ _ => 0, fun _ _ => 0, fun _ _ _ => 0,
         fun _ _ _ => 0, fun _ _ _ => 0, fun _ _ _ => 0, fun _ _ _ => 0,
         fun _ _ => 0, fun _ _ => 0, fun _ _ => 0, fun _ _ => 0,
         fun _ _ => 0, fun _ _ => 0, 0⟩).U_hat = (fun _ _ => 0) ∧
     (computeSource_Smagorinksy_SGS (ι := Unit) (κ := Unit)
        (fun f _ => ((f () : ℂ))) (fun f _ => (f ()).re) (fun _ _ => 0) 1 id
        ⟨fun _ _ => 0, fun _ _ => 0, fun _ _ => 0, fun _ _ _ => 0,
         fun _ _ _ => 0, fun _ _ _ => 0, fun _ _ _ => 0, fun _ _ _ => 0,
         fun _ _ => 0, fun _ _ => 0, fun _ _ => 0, fun _ _ => 0,
         fun _ _ => 0, fun _ _ => 0, 0⟩).U = (fun _ _ => 0) ∧
     (computeSource_Smagorinksy_SGS (ι := Unit) (κ := Unit)
        (fun f _ => ((f () : ℂ))) (fun f _ => (f ()).re) (fun _ _ => 0) 1 id
        ⟨fun _ _ => 0, fun _ _ => 0, fun _ _ => 0, fun _ _ _ => 0,
         fun _ _ _ => 0, fun _ _ _ => 0, fun _ _ _ => 0, fun _ _ _ => 0,
         fun _ _ => 0, fun _ _ => 0, fun _ _ => 0, fun _ _ => 0,
         fun _ _ => 0, fun _ _ => 0, 0⟩).dU
       = fun i k => (fun (_ : Fin 3) (_ : Unit) => (0 : ℂ)) i k +
          (computeSource_Smagorinksy_SGS (ι := Unit) (κ := Unit)
            (fun f _ => ((f () : ℂ))) (fun f _ => (f ()).re) (fun _ _ => 0) 1 id
            ⟨fun _ _ => 0, fun _ _ => 0, fun _ _ => 0, fun _ _ _ => 0,
             fun _ _ _ => 0, fun _ _ _ => 0, fun _ _ _ => 0, fun _ _ _ => 0,
             fun _ _ => 0, fun _ _ => 0, fun _ _ => 0, fun _ _ => 0,
             fun _ _ => 0, fun _ _ => 0, 0⟩).S_hat i k) ∧
    ((computeSourse_NonlinearModel_SGS (ι := Unit) (κ := Unit)
        (fun f _ => ((f () : ℂ))) (fun f _ => (f ()).re) (fun _ _ => 0) 1
        (fun _ => 1)
        ⟨fun _ _ => 0, fun _ _ => 0, fun _ _ => 0, fun _ _ _ => 0,
         fun _ _ _ => 0, fun _ _ _ => 0, fun _ _ _ => 0, fun _ _ _ => 0,
         fun _ _ => 0, fun _ _ => 0, fun _ _ => 0, fun _ _ => 0,
         fun _ _ => 0, fun _ _ => 0, 0⟩).U_hat = (fun _ _ => 0) ∧
     (computeSourse_NonlinearModel_SGS (ι := Unit) (κ := Unit)
        (fun f _ => ((f () : ℂ))) (fun f _ => (f ()).re) (fun _ _ => 0) 1
        (fun _ => 1)
        ⟨fun _ _ => 0, fun _ _ => 0, fun _ _ => 0, fun _ _ _ => 0,
         fun _ _ _ => 0, fun _ _ _ => 0, fun _ _ _ => 0, fun _ _ _ => 0,
         fun _ _ => 0, fun _ _ => 0, fun _ _ => 0, fun _ _ => 0,
         fun _ _ => 0, fun _ _ => 0, 0⟩).U = (fun _ _ => 0) ∧
     (computeSourse_NonlinearModel_SGS (ι := Unit) (κ := Unit)
        (fun f _ => ((f () : ℂ))) (fun f _ => (f ()).re) (fun _ _ => 0) 1
        (fun _ => 1)
        ⟨fun _ _ => 0, fun _ _ => 0, fun _ _ => 0, fun _ _ _ => 0,
         fun _ _ _ => 0, fun _ _ _ => 0, fun _ _ _ => 0, fun _ _ _ => 0,
         fun _ _ => 0, fun _ _ => 0, fun _ _ => 0, fun _ _ => 0,
         fun _ _ => 0, fun _ _ => 0, 0⟩).dU
       = fun i k => (fun (_ : Fin 3) (_ : Unit) => (0 : ℂ)) i k +
          (computeSourse_NonlinearModel_SGS (ι := Unit) (κ := Unit)
            (fun f _ => ((f () : ℂ))) (fun f _ => (f ()).re) (fun _ _ => 0) 1
            (fun _ => 1)
            ⟨fun _ _ => 0, fun _ _ => 0, fun _ _ => 0, fun _ _ _ => 0,
             fun _ _ _ => 0, fun _ _ _ => 0, fun _ _ _ => 0, fun _ _ _ => 0,
             fun _ _ => 0, fun _ _ => 0, fun _ _ => 0, fun _ _ => 0,
             fun _ _ => 0, fun _ _ => 0, 0⟩).S_hat i k) ∧
    ((computeSource_DynamicSmagorinksy_SGS (ι := Unit) (κ := Unit)
        (fun f _ => ((f () : ℂ))) (fun f _ => (f ()).re) (fun _ => 1)
        (fun _ _ => 0) 1 2 (fun _ => 1) (fun _ => 1) 1 2
        ⟨fun _ _ => 0, fun _ _ => 0, fun _ _ => 0, fun _ _ _ => 0,
         fun _ _ _ => 0, fun _ _ _ => 0, fun _ _ _ => 0, fun _ _ _ => 0,
         fun _ _ => 0, fun _ _ => 0, fun _ _ => 0, fun _ _ => 0,
         fun _ _ => 0, fun _ _ => 0, 0⟩).U_hat = (fun _ _ => 0) ∧
     (computeSource_DynamicSmagorinksy_SGS (ι := Unit) (κ := Unit)
        (fun f _ => ((f () : ℂ))) (fun f _ => (f ()).re) (fun _ => 1)
        (fun _ _ => 0) 1 2 (fun _ => 1) (fun _ => 1) 1 2
        ⟨fun _ _ => 0, fun _ _ => 0, fun _ _ => 0, fun _ _ _ => 0,
         fun _ _ _ => 0, fun _ _ _ => 0, fun _ _ _ => 0, fun _ _ _ => 0,
         fun _ _ => 0, fun _ _ => 0, fun _ _ => 0, fun _ _ => 0,
         fun _ _ => 0, fun _ _ => 0, 0⟩).U = (fun _ _ => 0) ∧
     (computeSource_DynamicSmagorinksy_SGS (ι := Unit) (κ := Unit)
        (fun f _ => ((f () : ℂ))) (fun f _ => (f ()).re) (fun _ => 1)
        (fun _ _ => 0) 1 2 (fun _ => 1) (fun _ => 1) 1 2
        ⟨fun _ _ => 0, fun _ _ => 0, fun _ _ => 0, fun _ _ _ => 0,
         fun _ _ _ => 0, fun _ _ _ => 0, fun _ _ _ => 0, fun _ _ _ => 0,
         fun _ _ => 0, fun _ _ => 0, fun _ _ => 0, fun _ _ => 0,
         fun _ _ => 0, fun _ _ => 0, 0⟩).dU
       = fun i k => (fun (_ : Fin 3) (_ : Unit) => (0 : ℂ)) i k +
          (computeSource_DynamicSmagorinksy_SGS (ι := Unit) (κ := Unit)
            (fun f _ => ((f () : ℂ))) (fun f _ => (f ()).re) (fun _ => 1)
            (fun _ _ => 0) 1 2 (fun _ => 1) (fun _ => 1) 1 2
            ⟨fun _ _ => 0, fun _ _ => 0, fun _ _ => 0, fun _ _ _ => 0,
             fun _ _ _ => 0, fun _ _ _ => 0, fun _ _ _ => 0, fun _ _ _ => 0,
             fun _ _ => 0, fun _ _ => 0, fun _ _ => 0, fun _ _ => 0,
             fun _ _ => 0, fun _ _ => 0, 0⟩).S_hat i k) :=
  sgs_sources_preserve_velocity (fun f _ => ((f () : ℂ))) (fun f _ => (f ()).re)
    (fun _ => 1) (fun _ _ => 0) 1 2 (fun _ => 1) (fun _ => 1) 1 1 2
    (fun _ => 1) id
    ⟨fun _ _ => 0, fun _ _ => 0, fun _ _ => 0, fun _ _ _ => 0,
     fun _ _ _ => 0, fun _ _ _ => 0, fun _ _ _ => 0, fun _ _ _ => 0,
     fun _ _ => 0, fun _ _ => 0, fun _ _ => 0, fun _ _ => 0,
     fun _ _ => 0, fun _ _ => 0, 0⟩
    (by funext i x; simp)

/-! ## RK4 time integrator (`RK4_integrate`, lines 621-681, C1) -/

/-- `RK4_integrate`.  `computeAD` is the attribute the stage loop invokes
(never defined by the class — see C2 — so it must be bound by the caller) and
`Sources` is the user-supplied ordered list of source evaluators; both act on
the full solver state.  The per-stage right-hand side is filtered by the LES
filter and Leray-Hopf projected using the masked `K_Ksq` coefficients, the
working state is advanced with `b = [0.5, 0.5, 1]` for the first three
stages, and the weighted accumulator `U_hat1` collects
`a = [1/6, 1/3, 1/3, 1/6]` contributions.  After the loop the physical
velocity is refreshed from `U_hat` — which the source never overwrites with
`U_hat1`. -/
noncomputable def RK4_integrate {ι κ : Type}
    (irfft3 : (κ → ℂ) → ι → ℝ) (K : Fin 3 → κ → ℤ) (les_filter : κ → ℂ)
    (computeAD : LESVars ι κ → LESVars ι κ)
    (Sources : List (LESVars ι κ → LESVars ι κ))
    (dt : ℝ) (s : LESVars ι κ) : LESVars ι κ :=
  let a : List ℝ := [1/6, 1/3, 1/3, 1/6]
  let b : List ℝ := [0.5, 0.5, 1]
  let s := { s with U_hat1 := s.U_hat, U_hat0 := s.U_hat }
  let s := (List.range 4).foldl (fun s rk =>
    let s := { s with U := fun i => irfft3 (s.U_hat i) }
    let s := computeAD s
    let s := Sources.foldl (fun s Source => Source s) s
    let s := { s with dU := fun i k => s.dU i k * les_filter k }
    let s := { s with dU := fun i k => s.dU i k -
      (∑ j, s.dU j k * ((K_Ksq (fun m => K m k) j : ℚ) : ℂ)) * ((K i k : ℤ) : ℂ) }
    let s := if rk < 3 then
        { s with U_hat := fun i k =>
            s.U_hat0 i k + ((b.getD rk 0 * dt : ℝ) : ℂ) * s.dU i k }
      else s
    { s with U_hat1 := fun i k =>
        s.U_hat1 i k + ((a.getD rk 0 * dt : ℝ) : ℂ) * s.dU i k }) s
  { s with U := fun i => irfft3 (s.U_hat i) }

/-- A caller-bound advection-diffusion evaluator used to probe the
integrator: linear damping `dU = -U_hat` on a one-point, one-mode grid. -/
noncomputable def rk4_probe_AD : LESVars Unit Unit → LESVars Unit Unit :=
  fun s => { s with dU := fun i _ => -(s.U_hat i ()) }

/-- The probe initial state: `U_hat = 1` at the single retained mode. -/
noncomputable def rk4_probe_state : LESVars Unit Unit :=
  ⟨fun _ _ => 0, fun _ _ => 0, fun _ _ => 0, fun _ _ _ => 0, fun _ _ _ => 0,
   fun _ _ _ => 0, fun _ _ _ => 0, fun _ _ _ => 0, fun _ _ => 1,
   fun _ _ => 0, fun _ _ => 0, fun _ _ => 0, fun _ _ => 0, fun _ _ => 0, 0⟩

/-- The integrator applied to the probe at `dt = 1`, zero wavevector
(projection and LES filter act as the identity there), no extra sources. -/
noncomputable def rk4_probe_result : LESVars Unit Unit :=
  RK4_integrate (fun f _ => (f ()).re) (fun _ _ => 0) (fun _ => 1)
    rk4_probe_AD [] 1 rk4_probe_state

/-- C1: evaluating `RK4_integrate` on the probe shows the missing final
copy.  The weighted accumulator `U_hat1` correctly holds the classical RK4
combination `U_hat0 + dt*(dU0/6 + dU1/3 + dU2/3 + dU3/6) = 3/8`, but the
returned spectral velocity `U_hat` still holds the third-stage predictor
`U_hat0 + 1.0*dt*dU2 = 1/4`, and the physical velocity is the inverse
transform of that stale value — the accumulated weighted sum is never copied
back into `U_hat`. -/
theorem rk4_weighted_sum_never_copied :
    rk4_probe_result.U_hat 0 () = 1 / 4 ∧
    rk4_probe_result.U_hat1 0 () = 3 / 8 ∧
    rk4_probe_result.U_hat 0 () ≠ rk4_probe_result.U_hat1 0 () ∧
    rk4_probe_result.U 0 () = 1 / 4 := by
  have hrange : List.range 4 = [0, 1, 2, 3] := rfl
  refine ⟨?_, ?_, ?_, ?_⟩ <;>
    · simp only [rk4_probe_result, RK4_integrate, rk4_probe_AD,
        rk4_probe_state, hrange, List.foldl, K_Ksq, Ksq, List.getD]
      norm_num [Fin.sum_univ_three, Complex.ext_iff]

end SpectralLES
